import Mathlib

/-!
# Container monitor (`monitor.go`): status collection, classification and dashboard counts

A shallow embedding of `monitor.go`.  Go strings are Lean strings, Go `int` counters are
natural numbers (they are only ever incremented, at most `len(services)` times), a Go
`map[string]ContainerStatus` is a key-unique association list, and `time.Duration` is an
integer number of nanoseconds.  The Docker client is a record of the two calls the program
makes on it.
-/

namespace Monitor

/-! ## ANSI colours (`monitor.go` 18-28) -/

def Red : String := "\x1b[0;31m"
def Green : String := "\x1b[0;32m"
def Yellow : String := "\x1b[1;33m"
def Blue : String := "\x1b[0;34m"
def Purple : String := "\x1b[0;35m"
def Cyan : String := "\x1b[0;36m"
def White : String := "\x1b[1;37m"
def Gray : String := "\x1b[0;90m"
def Reset : String := "\x1b[0m"

/-! ## Data model (`monitor.go` 30-58) -/

/-- Service definition.  The Go field `Type` ("infra" or "micro") is called `Typ` here,
`Type` being reserved. -/
structure Service where
  Name : String
  Container : String
  Port : String
  Typ : String
deriving DecidableEq, Repr

/-- Container status. -/
structure ContainerStatus where
  Name : String
  Status : String
  Health : String
  Running : Bool
deriving DecidableEq, Repr

/-- The zero value of `ContainerStatus`, which a Go map lookup yields for a missing key. -/
def ContainerStatus.zero : ContainerStatus :=
  { Name := "", Status := "", Health := "", Running := false }

/-- Service definitions: the package-level registry. -/
def services : List Service :=
  [ ⟨"MongoDB", "ms-kotlin-mongodb", "27018", "infra"⟩,
    ⟨"MySQL", "ms-kotlin-mysql", "3307", "infra"⟩,
    ⟨"Zookeeper", "ms-kotlin-zookeeper", "2181", "infra"⟩,
    ⟨"Kafka", "ms-kotlin-kafka", "9092", "infra"⟩,
    ⟨"Kafka-UI", "ms-kotlin-kafka-ui", "8090", "infra"⟩,
    ⟨"Vault", "ms-kotlin-vault", "8200", "infra"⟩,
    ⟨"Config", "ms-kotlin-configuration-server", "8888", "micro"⟩,
    ⟨"Discovery", "ms-kotlin-discover-server", "8761", "micro"⟩,
    ⟨"Products", "ms-kotlin-product-service", "8082", "micro"⟩,
    ⟨"Orders", "ms-kotlin-order-service", "8083", "micro"⟩ ]

/-! ## The Docker client, as far as the program uses it -/

/-- The fields of the Docker API type `types.Container` that the program reads. -/
structure Container where
  ID : String
  Names : List String
  State : String
deriving DecidableEq, Repr

/-- The Docker API type `types.Health`: only `Status` is read. -/
structure Health where
  Status : String
deriving DecidableEq, Repr

/-- The Docker API type `types.ContainerState`: `Health` is a pointer that may be nil. -/
structure ContainerState where
  Health : Option Health
deriving DecidableEq, Repr

/-- The Docker API type `types.ContainerJSON`: only `State.Health` is read. -/
structure ContainerJSON where
  State : ContainerState
deriving DecidableEq, Repr

/-- The two calls made on `*client.Client`.  `ContainerList` is made once per poll, so it
is the result of that one call; `ContainerInspect` answers per container ID.  Either may
fail with an error message. -/
structure Client where
  ContainerList : Except String (List Container)
  ContainerInspect : String → Except String ContainerJSON

/-! ## `strings.Contains` -/

/-- The call `strings.Contains(s, substr)`: `substr` occurs in `s` at some offset. -/
def stringsContains (s substr : String) : Bool :=
  s.toList.tails.any (fun t => substr.toList.isPrefixOf t)

/-! ## Go maps from `string` to `ContainerStatus` -/

/-- A Go `map[string]ContainerStatus`: an association list with at most one entry per key. -/
abbrev StatusMap := List (String × ContainerStatus)

/-- The assignment `m[k] = v`: overwrite the entry of `k` when there is one, add it otherwise. -/
def mapSet : StatusMap → String → ContainerStatus → StatusMap
  | [], k, v => [(k, v)]
  | (k', v') :: rest, k, v =>
    if k' = k then (k, v) :: rest else (k', v') :: mapSet rest k v

/-- The two-valued lookup `v, ok := m[k]`. -/
def mapFind? : StatusMap → String → Option ContainerStatus
  | [], _ => none
  | (k', v') :: rest, k => if k' = k then some v' else mapFind? rest k

/-- The lookup `m[k]`: the zero value when the key is missing. -/
def mapGet (m : StatusMap) (k : String) : ContainerStatus :=
  (mapFind? m k).getD ContainerStatus.zero

/-- The keys of the map. -/
def mapKeys (m : StatusMap) : List String := m.map Prod.fst

/-- The builtin `len(m)`. -/
def mapLen (m : StatusMap) : Nat := m.length

/-! ## `getAllContainerStatus` (`monitor.go` 122-175) -/

/-- The inner loop `for _, name := range container.Names` (146-162), started with the
current `status`: at the first name containing `s.Container` the status takes the
container's state, the health is resolved by an inspect call when the state is "running",
and the loop over the names is left by `break`. -/
def scanNames (cli : Client) (s : Service) (container : Container)
    (status : ContainerStatus) : List String → ContainerStatus
  | [] => status
  | name :: rest =>
    if stringsContains name s.Container then
      let status := { status with
        Status := container.State, Running := container.State == "running" }
      if container.State == "running" then
        match cli.ContainerInspect container.ID with
        | .ok inspect =>
          match inspect.State.Health with
          | some h => { status with Health := h.Status }
          | none => { status with Health := "no-healthcheck" }
        | .error _ => { status with Health := "no-healthcheck" }
      else status
    else scanNames cli s container status rest

/-- The outer loop `for _, container := range containers` (145-163): every container of the
list is visited in listing order, the `break` of the inner loop leaving only the loop over
that container's names. -/
def scanContainers (cli : Client) (s : Service) :
    ContainerStatus → List Container → ContainerStatus
  | status, [] => status
  | status, container :: rest =>
    scanContainers cli s (scanNames cli s container status container.Names) rest

/-- The goroutine started for one service (136-165): the value it sends on `statusChan`. -/
def serviceStatus (cli : Client) (containers : List Container) (s : Service) :
    ContainerStatus :=
  scanContainers cli s
    { Name := s.Container, Status := "NOT_RUNNING", Health := "unknown", Running := false }
    containers

/-- The collecting loop (169-172): each received status is stored under its `Name`. -/
def collectResults (received : List ContainerStatus) : StatusMap :=
  received.foldl (fun m status => mapSet m status.Name status) []

/-- Get all container statuses concurrently.  The registry is a parameter (the program
passes the package-level `services`).  The goroutines send on a buffered channel, so the
statuses are received in an order the program does not control: `recvOrder` turns the
statuses listed in registry order into the order of reception. -/
def getAllContainerStatus (cli : Client) (services : List Service)
    (recvOrder : List ContainerStatus → List ContainerStatus) : StatusMap :=
  match cli.ContainerList with
  | .error _ => []
  | .ok containers => collectResults (recvOrder (services.map (serviceStatus cli containers)))

/-! ## `getStatusDisplay` (`monitor.go` 178-193) -/

/-- Get status display string. -/
def getStatusDisplay (status : ContainerStatus) : String :=
  if status.Running && (status.Health == "healthy" || status.Health == "no-healthcheck") then
    Green ++ "✅ HEALTHY" ++ Reset
  else if status.Running && status.Health == "starting" then
    Yellow ++ "⏳ STARTING" ++ Reset
  else if status.Running && status.Health == "unhealthy" then
    Red ++ "⚠️  UNHEALTHY" ++ Reset
  else if status.Status == "restarting" then
    Yellow ++ "🔄 RESTARTING" ++ Reset
  else if status.Status == "paused" then
    Blue ++ "⏸️  PAUSED" ++ Reset
  else
    Gray ++ "⚫ STOPPED" ++ Reset

/-! ## `showDashboard` (`monitor.go` 196-271) -/

/-- The verb `%-12s` of `fmt.Sprintf`: the string, padded with spaces on the right up to
twelve characters. -/
def padRight12 (s : String) : String :=
  s ++ String.mk (List.replicate (12 - s.length) ' ')

/-- The variables declared at 208-209, updated by the loop over the services. -/
structure Tally where
  infraServices : List String
  microServices : List String
  total : Nat
  healthy : Nat
  starting : Nat
  stopped : Nat
deriving DecidableEq, Repr

/-- One iteration of the loop body (213-231) for `service`. -/
def tallyService (statuses : StatusMap) (acc : Tally) (service : Service) : Tally :=
  let status := mapGet statuses service.Container
  let statusDisplay := getStatusDisplay status
  let line := "║ " ++ padRight12 service.Name ++ " " ++ statusDisplay ++ " " ++ Cyan ++ ":" ++
    service.Port
  let acc := { acc with total := acc.total + 1 }
  let acc :=
    if status.Running && (status.Health == "healthy" || status.Health == "no-healthcheck") then
      { acc with healthy := acc.healthy + 1 }
    else if status.Running && status.Health == "starting" then
      { acc with starting := acc.starting + 1 }
    else
      { acc with stopped := acc.stopped + 1 }
  if service.Typ == "infra" then
    { acc with infraServices := acc.infraServices ++ [line] }
  else
    { acc with microServices := acc.microServices ++ [line] }

/-- Build service lists and count statuses (211-232). -/
def tallyServices (services : List Service) (statuses : StatusMap) : Tally :=
  services.foldl (tallyService statuses) ⟨[], [], 0, 0, 0, 0⟩

/-- Summary message (234-242). -/
def summaryMessage (total healthy starting : Nat) : String :=
  if healthy == total then
    Green ++ "🎉 All services healthy" ++ Reset
  else if healthy + starting > 0 then
    Yellow ++ "⏳ Services starting up" ++ Reset
  else
    Red ++ "🛑 No services running" ++ Reset

/-- What one call of `showDashboard` prints, apart from the fixed frame and the timestamp:
the lines of the two groups, the four counts and the summary. -/
structure Dashboard where
  infraServices : List String
  microServices : List String
  total : Nat
  healthy : Nat
  starting : Nat
  stopped : Nat
  summary : String
deriving DecidableEq, Repr

/-- The body of `showDashboard` from 208 on, for the status map `statuses`. -/
def showDashboardFrom (services : List Service) (statuses : StatusMap) : Dashboard :=
  let t := tallyServices services statuses
  { infraServices := t.infraServices, microServices := t.microServices,
    total := t.total, healthy := t.healthy, starting := t.starting, stopped := t.stopped,
    summary := summaryMessage t.total t.healthy t.starting }

/-- Show dashboard: collect the statuses (205), then count and summarise. -/
def showDashboard (cli : Client) (services : List Service)
    (recvOrder : List ContainerStatus → List ContainerStatus) : Dashboard :=
  showDashboardFrom services (getAllContainerStatus cli services recvOrder)

/-! ## The monitoring loop of `main` (`monitor.go` 101-118) -/

/-- The pause made by `time.Sleep(d)`, in nanoseconds: a negative or zero duration makes
`Sleep` return immediately. -/
def timeSleep (d : Int) : Int := if d ≤ 0 then 0 else d

/-- The times of one cycle: when it started, the measured `duration` of `showDashboard`,
the argument passed to `time.Sleep`, and the time at which the loop comes back to its
`select`. -/
structure Cycle where
  start : Int
  duration : Int
  sleepArg : Int
  next : Int
deriving DecidableEq, Repr

/-- The `default` branch of the loop (108-116), entered at clock value `now`, when
`showDashboard` takes `elapsed` nanoseconds. -/
def mainCycle (interval now elapsed : Int) : Cycle :=
  let start := now
  let afterDashboard := now + elapsed
  let duration := afterDashboard - start
  { start := start, duration := duration, sleepArg := interval,
    next := afterDashboard + timeSleep interval }

/-- The delay between the end of a cycle's processing and the start of the next cycle. -/
def Cycle.delay (c : Cycle) : Int := c.next - (c.start + c.duration)

/-- The loop, run from clock value `now`: one cycle per element of `elapsed` (the time
`showDashboard` takes in that cycle), after which `ctx.Done()` is observed and `main`
returns. -/
def mainLoop (interval : Int) : Int → List Int → List Cycle
  | _, [] => []
  | now, elapsed :: rest =>
    let c := mainCycle interval now elapsed
    c :: mainLoop interval c.next rest

/-! ## Display categories and summaries, as the specification names them -/

/-- The six display categories. -/
inductive DisplayCategory where
  | HEALTHY | STARTING | UNHEALTHY | RESTARTING | PAUSED | STOPPED
deriving DecidableEq, Repr

/-- The string `getStatusDisplay` returns for a category (181-191). -/
def DisplayCategory.display : DisplayCategory → String
  | .HEALTHY => Green ++ "✅ HEALTHY" ++ Reset
  | .STARTING => Yellow ++ "⏳ STARTING" ++ Reset
  | .UNHEALTHY => Red ++ "⚠️  UNHEALTHY" ++ Reset
  | .RESTARTING => Yellow ++ "🔄 RESTARTING" ++ Reset
  | .PAUSED => Blue ++ "⏸️  PAUSED" ++ Reset
  | .STOPPED => Gray ++ "⚫ STOPPED" ++ Reset

/-- The ordered rules 1-5 of the specification's classifier: a condition and the category
it yields. -/
def classifyRules : List ((ContainerStatus → Bool) × DisplayCategory) :=
  [ (fun st => st.Running && (st.Health == "healthy" || st.Health == "no-healthcheck"),
      .HEALTHY),
    (fun st => st.Running && st.Health == "starting", .STARTING),
    (fun st => st.Running && st.Health == "unhealthy", .UNHEALTHY),
    (fun st => st.Status == "restarting", .RESTARTING),
    (fun st => st.Status == "paused", .PAUSED) ]

/-- The specification's `classify`: the category of the first rule whose condition holds,
and STOPPED when none does (rule 6). -/
def classify (status : ContainerStatus) : DisplayCategory :=
  match classifyRules.find? (fun rule => rule.1 status) with
  | some rule => rule.2
  | none => .STOPPED

/-- The three overall summaries. -/
inductive Summary where
  | ALL_HEALTHY | STARTING_UP | NONE_RUNNING
deriving DecidableEq, Repr

/-- The string `showDashboard` prints for a summary (237-241). -/
def Summary.display : Summary → String
  | .ALL_HEALTHY => Green ++ "🎉 All services healthy" ++ Reset
  | .STARTING_UP => Yellow ++ "⏳ Services starting up" ++ Reset
  | .NONE_RUNNING => Red ++ "🛑 No services running" ++ Reset

/-- The condition of the first `case` of both switches (180, 219). -/
def countsHealthy (status : ContainerStatus) : Bool :=
  status.Running && (status.Health == "healthy" || status.Health == "no-healthcheck")

/-- The condition of the second `case` of both switches (182, 221). -/
def countsStarting (status : ContainerStatus) : Bool :=
  status.Running && status.Health == "starting"

/-- Some name of the container contains the service's container identifier. -/
def matchesService (s : Service) (container : Container) : Bool :=
  container.Names.any (fun name => stringsContains name s.Container)

/-- The health the inspect call of 153-158 resolves for a running container. -/
def inspectHealth (cli : Client) (container : Container) : String :=
  match cli.ContainerInspect container.ID with
  | .ok inspect =>
    match inspect.State.Health with
    | some h => h.Status
    | none => "no-healthcheck"
  | .error _ => "no-healthcheck"

/-! ## Concrete inputs -/

/-- The registry entry of the Kafka broker (line 51). -/
def kafkaService : Service := ⟨"Kafka", "ms-kotlin-kafka", "9092", "infra"⟩

/-- A running Kafka container. -/
def kafkaContainer : Container := ⟨"k1", ["/ms-kotlin-kafka"], "running"⟩

/-- An exited Kafka-UI container; its name contains the identifier of the Kafka service. -/
def kafkaUiContainer : Container := ⟨"k2", ["/ms-kotlin-kafka-ui"], "exited"⟩

/-- A runtime listing the Kafka container before the Kafka-UI container, every inspect
call reporting health "healthy". -/
def kafkaClient : Client :=
  { ContainerList := .ok [kafkaContainer, kafkaUiContainer]
    ContainerInspect := fun _ => .ok ⟨⟨some ⟨"healthy"⟩⟩⟩ }

/-- A runtime whose list call fails. -/
def failingClient : Client :=
  { ContainerList := .error "cannot connect to the Docker daemon"
    ContainerInspect := fun _ => .error "cannot connect to the Docker daemon" }

/-- The registry entry of MySQL (line 49). -/
def mysqlService : Service := ⟨"MySQL", "ms-kotlin-mysql", "3307", "infra"⟩

/-- The registry entry of MongoDB (line 48). -/
def mongoService : Service := ⟨"MongoDB", "ms-kotlin-mongodb", "27018", "infra"⟩

/-- A running MySQL container. -/
def mysqlContainer : Container := ⟨"m1", ["/ms-kotlin-mysql"], "running"⟩

/-- A runtime listing only a running MySQL container, whose health is "starting". -/
def mysqlClient : Client :=
  { ContainerList := .ok [mysqlContainer]
    ContainerInspect := fun _ => .ok ⟨⟨some ⟨"starting"⟩⟩⟩ }

/-- A status map with a healthy MongoDB and a starting MySQL. -/
def twoStatuses : StatusMap :=
  [("ms-kotlin-mongodb", ⟨"ms-kotlin-mongodb", "running", "healthy", true⟩),
   ("ms-kotlin-mysql", ⟨"ms-kotlin-mysql", "running", "starting", true⟩)]

/-! ## Lemmas on the classifier -/

theorem display_injective (a b : DisplayCategory) (h : a.display = b.display) : a = b := by
  cases a <;> cases b <;> first | rfl | exact absurd h (by decide)

theorem summary_display_injective (a b : Summary) (h : a.display = b.display) : a = b := by
  cases a <;> cases b <;> first | rfl | exact absurd h (by decide)

theorem getStatusDisplay_eq_classify (status : ContainerStatus) :
    getStatusDisplay status = (classify status).display := by
  cases h1 : (status.Running &&
      (status.Health == "healthy" || status.Health == "no-healthcheck")) <;>
    cases h2 : (status.Running && status.Health == "starting") <;>
    cases h3 : (status.Running && status.Health == "unhealthy") <;>
    cases h4 : (status.Status == "restarting") <;>
    cases h5 : (status.Status == "paused") <;>
    simp only [getStatusDisplay, classify, classifyRules, List.find?, h1, h2, h3, h4, h5,
      DisplayCategory.display] <;> rfl

theorem classify_eq_ite (status : ContainerStatus) :
    classify status =
      if countsHealthy status then .HEALTHY
      else if countsStarting status then .STARTING
      else if status.Running && status.Health == "unhealthy" then .UNHEALTHY
      else if status.Status == "restarting" then .RESTARTING
      else if status.Status == "paused" then .PAUSED
      else .STOPPED := by
  cases h1 : (status.Running &&
      (status.Health == "healthy" || status.Health == "no-healthcheck")) <;>
    cases h2 : (status.Running && status.Health == "starting") <;>
    cases h3 : (status.Running && status.Health == "unhealthy") <;>
    cases h4 : (status.Status == "restarting") <;>
    cases h5 : (status.Status == "paused") <;>
    simp only [classify, classifyRules, List.find?, countsHealthy, countsStarting,
      h1, h2, h3, h4, h5] <;> rfl

theorem countsStarting_not_healthy (status : ContainerStatus)
    (h : countsStarting status = true) : countsHealthy status = false := by
  obtain ⟨n, s, hl, r⟩ := status
  simp only [countsStarting, Bool.and_eq_true, beq_iff_eq] at h
  obtain ⟨hr, hh⟩ := h
  subst hh
  simp [countsHealthy]

theorem classify_healthy_iff (status : ContainerStatus) :
    classify status = .HEALTHY ↔ countsHealthy status = true := by
  rw [classify_eq_ite]
  split_ifs <;> simp_all

theorem classify_starting_iff (status : ContainerStatus) :
    classify status = .STARTING ↔ countsStarting status = true := by
  rw [classify_eq_ite]
  by_cases hs : countsStarting status = true
  · have := countsStarting_not_healthy status hs
    simp [hs, this]
  · split_ifs <;> simp_all

theorem display_healthy_iff (status : ContainerStatus) :
    getStatusDisplay status = DisplayCategory.HEALTHY.display ↔ countsHealthy status = true := by
  rw [getStatusDisplay_eq_classify, ← classify_healthy_iff]
  exact ⟨display_injective _ _, fun h => by rw [h]⟩

theorem display_starting_iff (status : ContainerStatus) :
    getStatusDisplay status = DisplayCategory.STARTING.display ↔
      countsStarting status = true := by
  rw [getStatusDisplay_eq_classify, ← classify_starting_iff]
  exact ⟨display_injective _ _, fun h => by rw [h]⟩

theorem display_other_iff (status : ContainerStatus) :
    (getStatusDisplay status = DisplayCategory.UNHEALTHY.display ∨
      getStatusDisplay status = DisplayCategory.RESTARTING.display ∨
      getStatusDisplay status = DisplayCategory.PAUSED.display ∨
      getStatusDisplay status = DisplayCategory.STOPPED.display) ↔
      (countsHealthy status = false ∧ countsStarting status = false) := by
  have hh := classify_healthy_iff status
  have hs := classify_starting_iff status
  rw [getStatusDisplay_eq_classify]
  constructor
  · intro h
    have hne : classify status ≠ .HEALTHY ∧ classify status ≠ .STARTING := by
      rcases h with h | h | h | h <;> have := display_injective _ _ h <;> simp [this]
    exact ⟨by simpa [hh] using hne.1, by simpa [hs] using hne.2⟩
  · rintro ⟨h1, h2⟩
    have n1 : classify status ≠ .HEALTHY := by simp [hh, h1]
    have n2 : classify status ≠ .STARTING := by simp [hs, h2]
    cases hc : classify status <;> simp_all

/-! ## Lemmas on the counting loop -/

theorem tallyService_counts (statuses : StatusMap) (acc : Tally) (service : Service) :
    (tallyService statuses acc service).total = acc.total + 1 ∧
    (tallyService statuses acc service).healthy = acc.healthy +
      (if countsHealthy (mapGet statuses service.Container) then 1 else 0) ∧
    (tallyService statuses acc service).starting = acc.starting +
      (if !countsHealthy (mapGet statuses service.Container) &&
          countsStarting (mapGet statuses service.Container) then 1 else 0) ∧
    (tallyService statuses acc service).stopped = acc.stopped +
      (if !countsHealthy (mapGet statuses service.Container) &&
          !countsStarting (mapGet statuses service.Container) then 1 else 0) := by
  cases h1 : countsHealthy (mapGet statuses service.Container) <;>
    cases h2 : countsStarting (mapGet statuses service.Container) <;>
    cases h3 : (service.Typ == "infra") <;>
    (simp only [countsHealthy, countsStarting] at h1 h2
     simp [tallyService, h1, h2, h3])

theorem tally_foldl (statuses : StatusMap) (services : List Service) (acc : Tally) :
    (services.foldl (tallyService statuses) acc).total = acc.total + services.length ∧
    (services.foldl (tallyService statuses) acc).healthy = acc.healthy +
      services.countP (fun s => countsHealthy (mapGet statuses s.Container)) ∧
    (services.foldl (tallyService statuses) acc).starting = acc.starting +
      services.countP (fun s => !countsHealthy (mapGet statuses s.Container) &&
        countsStarting (mapGet statuses s.Container)) ∧
    (services.foldl (tallyService statuses) acc).stopped = acc.stopped +
      services.countP (fun s => !countsHealthy (mapGet statuses s.Container) &&
        !countsStarting (mapGet statuses s.Container)) := by
  induction services generalizing acc with
  | nil => simp
  | cons s rest ih =>
    obtain ⟨i1, i2, i3, i4⟩ := ih (tallyService statuses acc s)
    obtain ⟨t1, t2, t3, t4⟩ := tallyService_counts statuses acc s
    simp only [List.foldl_cons, List.length_cons, List.countP_cons]
    rw [i1, i2, i3, i4, t1, t2, t3, t4]
    refine ⟨by omega, by omega, by omega, by omega⟩

/-! ## Lemmas on maps and on the collecting loop -/

theorem mapFind?_mapSet_self (m : StatusMap) (k : String) (v : ContainerStatus) :
    mapFind? (mapSet m k v) k = some v := by
  induction m with
  | nil => simp [mapSet, mapFind?]
  | cons e rest ih =>
    obtain ⟨k', v'⟩ := e
    by_cases h : k' = k
    · simp [mapSet, mapFind?, h]
    · simp [mapSet, mapFind?, h, ih]

theorem mapFind?_mapSet_ne (m : StatusMap) (k k' : String) (v : ContainerStatus)
    (hk : k ≠ k') : mapFind? (mapSet m k v) k' = mapFind? m k' := by
  induction m with
  | nil => simp [mapSet, mapFind?, hk]
  | cons e rest ih =>
    obtain ⟨k₀, v₀⟩ := e
    by_cases h : k₀ = k
    · subst h
      simp [mapSet, mapFind?, hk]
    · by_cases h' : k₀ = k'
      · subst h'
        simp [mapSet, mapFind?, h]
      · simp [mapSet, mapFind?, h, h', ih]

theorem mapKeys_mapSet_of_not_mem (m : StatusMap) (k : String) (v : ContainerStatus)
    (hk : k ∉ mapKeys m) : mapKeys (mapSet m k v) = mapKeys m ++ [k] := by
  induction m with
  | nil => simp [mapSet, mapKeys]
  | cons e rest ih =>
    obtain ⟨k₀, v₀⟩ := e
    simp only [mapKeys, List.map_cons, List.mem_cons, not_or] at hk
    have h : ¬ k₀ = k := fun h => hk.1 h.symm
    have ih' := ih (by simpa [mapKeys] using hk.2)
    simp only [mapKeys] at ih'
    simp [mapSet, mapKeys, h, ih']

theorem mapKeys_mapSet_of_mem (m : StatusMap) (k : String) (v : ContainerStatus)
    (hk : k ∈ mapKeys m) : mapKeys (mapSet m k v) = mapKeys m := by
  induction m with
  | nil => simp [mapKeys] at hk
  | cons e rest ih =>
    obtain ⟨k₀, v₀⟩ := e
    by_cases h : k₀ = k
    · subst h
      simp [mapSet, mapKeys]
    · have hrest : k ∈ mapKeys rest := by
        simp only [mapKeys, List.map_cons, List.mem_cons] at hk
        rcases hk with hk | hk
        · exact absurd hk.symm h
        · simpa [mapKeys] using hk
      have ih' := ih hrest
      simp only [mapKeys] at ih'
      simp [mapSet, mapKeys, h, ih']

theorem mapKeys_mapSet (m : StatusMap) (k : String) (v : ContainerStatus)
    (hm : (mapKeys m).Nodup) :
    (mapKeys (mapSet m k v)).Nodup ∧
    ∀ k', k' ∈ mapKeys (mapSet m k v) ↔ (k' ∈ mapKeys m ∨ k' = k) := by
  by_cases hk : k ∈ mapKeys m
  · rw [mapKeys_mapSet_of_mem m k v hk]
    refine ⟨hm, fun k' => ⟨Or.inl, ?_⟩⟩
    rintro (h | h)
    · exact h
    · exact h ▸ hk
  · rw [mapKeys_mapSet_of_not_mem m k v hk]
    refine ⟨?_, fun k' => by simp⟩
    rw [List.nodup_append]
    refine ⟨hm, List.nodup_singleton k, ?_⟩
    intro x hx hx'
    rw [List.mem_singleton] at hx'
    exact hk (hx' ▸ hx)

theorem collect_keys (received : List ContainerStatus) (m : StatusMap)
    (hm : (mapKeys m).Nodup) :
    (mapKeys (received.foldl (fun m status => mapSet m status.Name status) m)).Nodup ∧
    ∀ k, k ∈ mapKeys (received.foldl (fun m status => mapSet m status.Name status) m) ↔
      (k ∈ mapKeys m ∨ k ∈ received.map ContainerStatus.Name) := by
  induction received generalizing m with
  | nil => exact ⟨hm, fun k => by simp⟩
  | cons st rest ih =>
    obtain ⟨hn, hmem⟩ := mapKeys_mapSet m st.Name st hm
    obtain ⟨ihn, ihmem⟩ := ih (mapSet m st.Name st) hn
    refine ⟨ihn, fun k => ?_⟩
    simp only [List.foldl_cons, List.map_cons, List.mem_cons]
    rw [ihmem k, hmem k]
    tauto

theorem collect_find_absent (received : List ContainerStatus) (m : StatusMap) (k : String)
    (h : ∀ st ∈ received, st.Name ≠ k) :
    mapFind? (received.foldl (fun m status => mapSet m status.Name status) m) k =
      mapFind? m k := by
  induction received generalizing m with
  | nil => simp
  | cons st rest ih =>
    simp only [List.foldl_cons]
    rw [ih _ (fun st' hst' => h st' (List.mem_cons_of_mem _ hst'))]
    exact mapFind?_mapSet_ne m st.Name k st (h st (List.mem_cons_self _ _))

theorem collect_find_present (received : List ContainerStatus) (m : StatusMap) (k : String)
    (v : ContainerStatus) (hall : ∀ st ∈ received, st.Name = k → st = v)
    (hex : ∃ st ∈ received, st.Name = k) :
    mapFind? (received.foldl (fun m status => mapSet m status.Name status) m) k =
      some v := by
  induction received generalizing m with
  | nil => obtain ⟨st, hst, _⟩ := hex; cases hst
  | cons st rest ih =>
    simp only [List.foldl_cons]
    by_cases hrest : ∃ st' ∈ rest, st'.Name = k
    · exact ih _ (fun st' hst' => hall st' (List.mem_cons_of_mem _ hst')) hrest
    · have habs : ∀ st' ∈ rest, st'.Name ≠ k := fun st' hst' hn => hrest ⟨st', hst', hn⟩
      rw [collect_find_absent rest _ k habs]
      obtain ⟨st', hst', hn⟩ := hex
      rcases List.mem_cons.mp hst' with heq | hmem
      · subst heq
        have hv := hall st' (List.mem_cons_self _ _) hn
        rw [← hn, mapFind?_mapSet_self, hv]
      · exact absurd hn (habs st' hmem)

/-! ## Lemmas on the scan of the container list -/

theorem scanNames_congr (cli : Client) (s s' : Service) (container : Container)
    (status : ContainerStatus) (names : List String) (h : s.Container = s'.Container) :
    scanNames cli s container status names = scanNames cli s' container status names := by
  induction names with
  | nil => rfl
  | cons name rest ih => simp only [scanNames, h, ih]

theorem scanContainers_congr (cli : Client) (s s' : Service) (status : ContainerStatus)
    (containers : List Container) (h : s.Container = s'.Container) :
    scanContainers cli s status containers = scanContainers cli s' status containers := by
  induction containers generalizing status with
  | nil => rfl
  | cons c rest ih => simp only [scanContainers, scanNames_congr cli s s' c status _ h, ih]

theorem serviceStatus_congr (cli : Client) (containers : List Container) (s s' : Service)
    (h : s.Container = s'.Container) :
    serviceStatus cli containers s = serviceStatus cli containers s' := by
  simp only [serviceStatus, h, scanContainers_congr cli s s' _ containers h]

theorem scanNames_name (cli : Client) (s : Service) (container : Container)
    (status : ContainerStatus) (names : List String) :
    (scanNames cli s container status names).Name = status.Name := by
  induction names with
  | nil => rfl
  | cons name rest ih =>
    simp only [scanNames]
    split_ifs
    · split
      · split <;> rfl
      · rfl
    · rfl
    · exact ih

theorem scanContainers_name (cli : Client) (s : Service) (status : ContainerStatus)
    (containers : List Container) :
    (scanContainers cli s status containers).Name = status.Name := by
  induction containers generalizing status with
  | nil => rfl
  | cons c rest ih => simp only [scanContainers, ih, scanNames_name]

theorem serviceStatus_name (cli : Client) (containers : List Container) (s : Service) :
    (serviceStatus cli containers s).Name = s.Container := by
  simp only [serviceStatus, scanContainers_name]

theorem scanNames_no_match (cli : Client) (s : Service) (container : Container)
    (status : ContainerStatus) (names : List String)
    (h : ∀ name ∈ names, stringsContains name s.Container = false) :
    scanNames cli s container status names = status := by
  induction names with
  | nil => rfl
  | cons name rest ih =>
    have h0 := h name (List.mem_cons_self _ _)
    simp only [scanNames, h0]
    exact ih (fun n hn => h n (List.mem_cons_of_mem _ hn))

theorem scanNames_match (cli : Client) (s : Service) (container : Container)
    (status : ContainerStatus) (names : List String)
    (h : ∃ name ∈ names, stringsContains name s.Container = true) :
    scanNames cli s container status names =
      { status with
        Status := container.State
        Running := container.State == "running"
        Health := if container.State == "running" then inspectHealth cli container
          else status.Health } := by
  induction names with
  | nil => obtain ⟨n, hn, _⟩ := h; cases hn
  | cons name rest ih =>
    by_cases h0 : stringsContains name s.Container = true
    · simp only [scanNames, h0, if_true, inspectHealth]
      split_ifs
      · split
        · split <;> simp_all
        · simp_all
      · rfl
    · have hrest : ∃ n ∈ rest, stringsContains n s.Container = true := by
        obtain ⟨n, hn, hc⟩ := h
        rcases List.mem_cons.mp hn with heq | hmem
        · exact absurd (heq ▸ hc) h0
        · exact ⟨n, hmem, hc⟩
      simp only [scanNames, h0]
      exact ih hrest

theorem scanContainers_filter (cli : Client) (s : Service) (status : ContainerStatus)
    (containers : List Container) :
    scanContainers cli s status containers =
      scanContainers cli s status (containers.filter (matchesService s)) := by
  induction containers generalizing status with
  | nil => rfl
  | cons c rest ih =>
    by_cases hc : matchesService s c = true
    · simp only [List.filter_cons, hc, if_true, scanContainers]
      exact ih _
    · have hno : ∀ name ∈ c.Names, stringsContains name s.Container = false := by
        intro name hname
        by_contra hcon
        exact hc (List.any_eq_true.mpr ⟨name, hname, by simpa using hcon⟩)
      simp only [List.filter_cons, hc, scanContainers,
        scanNames_no_match cli s c status c.Names hno]
      exact ih _

theorem lookup_getAll (cli : Client) (services : List Service)
    (recvOrder : List ContainerStatus → List ContainerStatus) (containers : List Container)
    (hlist : cli.ContainerList = .ok containers)
    (hperm : ∀ l, (recvOrder l).Perm l) (s : Service) (hs : s ∈ services) :
    mapFind? (getAllContainerStatus cli services recvOrder) s.Container =
      some (serviceStatus cli containers s) := by
  simp only [getAllContainerStatus, hlist, collectResults]
  have hmem : ∀ st, st ∈ recvOrder (services.map (serviceStatus cli containers)) ↔
      ∃ s' ∈ services, serviceStatus cli containers s' = st := by
    intro st
    rw [(hperm _).mem_iff, List.mem_map]
  apply collect_find_present
  · intro st hst hname
    obtain ⟨s', _, rfl⟩ := (hmem st).mp hst
    rw [serviceStatus_name] at hname
    exact serviceStatus_congr cli containers s' s hname
  · exact ⟨_, (hmem _).mpr ⟨s, hs, rfl⟩, serviceStatus_name cli containers s⟩

theorem get_getAll (cli : Client) (services : List Service)
    (recvOrder : List ContainerStatus → List ContainerStatus) (containers : List Container)
    (hlist : cli.ContainerList = .ok containers)
    (hperm : ∀ l, (recvOrder l).Perm l) (s : Service) (hs : s ∈ services) :
    mapGet (getAllContainerStatus cli services recvOrder) s.Container =
      serviceStatus cli containers s := by
  simp only [mapGet, lookup_getAll cli services recvOrder containers hlist hperm s hs,
    Option.getD_some]

/-! ## The classifier -/

/-- C1: `getStatusDisplay` is a total function deciding by ordered rules, first match wins.
Every status gets exactly one of the six categories; it is the category of the
specification's `classify` (first rule of the ordered list that holds, STOPPED when none
does), that is HEALTHY if running with health "healthy" or "no-healthcheck", else STARTING
if running with health "starting", else UNHEALTHY if running with health "unhealthy", else
RESTARTING if the status is "restarting", else PAUSED if it is "paused", else STOPPED.  A
running, healthy status whose `Status` is "paused" is HEALTHY. -/
theorem getStatusDisplay_ordered_rules (status : ContainerStatus) :
    (∃! c : DisplayCategory, getStatusDisplay status = c.display) ∧
    getStatusDisplay status = (classify status).display ∧
    getStatusDisplay status = DisplayCategory.display
      (if status.Running = true ∧
          (status.Health = "healthy" ∨ status.Health = "no-healthcheck") then .HEALTHY
       else if status.Running = true ∧ status.Health = "starting" then .STARTING
       else if status.Running = true ∧ status.Health = "unhealthy" then .UNHEALTHY
       else if status.Status = "restarting" then .RESTARTING
       else if status.Status = "paused" then .PAUSED
       else .STOPPED) ∧
    (∀ name : String, getStatusDisplay ⟨name, "paused", "healthy", true⟩ =
      DisplayCategory.HEALTHY.display) := by
  refine ⟨⟨classify status, getStatusDisplay_eq_classify status, ?_⟩,
    getStatusDisplay_eq_classify status, ?_, fun name => rfl⟩
  · intro c hc
    exact display_injective _ _ (hc.symm.trans (getStatusDisplay_eq_classify status))
  · rw [getStatusDisplay_eq_classify, classify_eq_ite]
    congr 1
    simp only [countsHealthy, countsStarting, Bool.and_eq_true, Bool.or_eq_true, beq_iff_eq]

/-! ## The counts and the summary -/

/-- C4: for every registry and every status map (keys may be missing), the counts of
`showDashboard` satisfy `total = len(services)` and `healthy + starting + stopped = total`;
each pass of the counting loop adds one to `total` and to exactly one of the three
buckets.  The same holds for the map `getAllContainerStatus` returns. -/
theorem showDashboard_counts_partition (services : List Service) (statuses : StatusMap)
    (cli : Client) (recvOrder : List ContainerStatus → List ContainerStatus) :
    (showDashboardFrom services statuses).total = services.length ∧
    (showDashboardFrom services statuses).healthy +
      (showDashboardFrom services statuses).starting +
      (showDashboardFrom services statuses).stopped =
      (showDashboardFrom services statuses).total ∧
    (showDashboard cli services recvOrder).total = services.length ∧
    (showDashboard cli services recvOrder).healthy +
      (showDashboard cli services recvOrder).starting +
      (showDashboard cli services recvOrder).stopped =
      (showDashboard cli services recvOrder).total ∧
    (∀ (acc : Tally) (service : Service),
      (tallyService statuses acc service).total = acc.total + 1 ∧
      (((tallyService statuses acc service).healthy = acc.healthy + 1 ∧
          (tallyService statuses acc service).starting = acc.starting ∧
          (tallyService statuses acc service).stopped = acc.stopped) ∨
        ((tallyService statuses acc service).healthy = acc.healthy ∧
          (tallyService statuses acc service).starting = acc.starting + 1 ∧
          (tallyService statuses acc service).stopped = acc.stopped) ∨
        ((tallyService statuses acc service).healthy = acc.healthy ∧
          (tallyService statuses acc service).starting = acc.starting ∧
          (tallyService statuses acc service).stopped = acc.stopped + 1))) := by
  have key : ∀ m : StatusMap,
      (showDashboardFrom services m).total = services.length ∧
      (showDashboardFrom services m).healthy + (showDashboardFrom services m).starting +
        (showDashboardFrom services m).stopped = (showDashboardFrom services m).total := by
    intro m
    obtain ⟨h1, h2, h3, h4⟩ := tally_foldl m services ⟨[], [], 0, 0, 0, 0⟩
    simp only [showDashboardFrom, tallyServices]
    rw [h1, h2, h3, h4]
    refine ⟨by simp, ?_⟩
    simp only [Nat.zero_add]
    clear h1 h2 h3 h4
    induction services with
    | nil => simp
    | cons s rest ih =>
      simp only [List.countP_cons, List.length_cons]
      cases countsHealthy (mapGet m s.Container) <;>
        cases countsStarting (mapGet m s.Container) <;> simp <;> omega
  refine ⟨(key statuses).1, (key statuses).2, (key _).1, (key _).2, ?_⟩
  intro acc service
  obtain ⟨t1, t2, t3, t4⟩ := tallyService_counts statuses acc service
  refine ⟨t1, ?_⟩
  rw [t2, t3, t4]
  cases countsHealthy (mapGet statuses service.Container) <;>
    cases countsStarting (mapGet statuses service.Container) <;> simp

/-- C5: the summary `showDashboard` prints is computed from its counts; it is ALL_HEALTHY
exactly when `healthy = total`, STARTING_UP exactly when `healthy ≠ total` and
`healthy + starting > 0`, and NONE_RUNNING otherwise, which is exactly when `healthy = 0`,
`starting = 0` and `total > 0`.  For a registry of two services, one classified HEALTHY
and the other STARTING (in either order), the counts are 1, 1, 0, 2 and the summary is
STARTING_UP. -/
theorem summaryMessage_cases (total healthy starting : Nat) (services : List Service)
    (statuses : StatusMap) :
    (showDashboardFrom services statuses).summary =
      summaryMessage (showDashboardFrom services statuses).total
        (showDashboardFrom services statuses).healthy
        (showDashboardFrom services statuses).starting ∧
    (summaryMessage total healthy starting = Summary.ALL_HEALTHY.display ↔
      healthy = total) ∧
    (summaryMessage total healthy starting = Summary.STARTING_UP.display ↔
      (healthy ≠ total ∧ healthy + starting > 0)) ∧
    (summaryMessage total healthy starting = Summary.NONE_RUNNING.display ↔
      (healthy ≠ total ∧ ¬ healthy + starting > 0)) ∧
    (summaryMessage total healthy starting = Summary.NONE_RUNNING.display ↔
      (healthy = 0 ∧ starting = 0 ∧ total > 0)) ∧
    (∀ s₁ s₂ : Service,
      getStatusDisplay (mapGet statuses s₁.Container) = DisplayCategory.HEALTHY.display →
      getStatusDisplay (mapGet statuses s₂.Container) = DisplayCategory.STARTING.display →
      ((showDashboardFrom [s₁, s₂] statuses).healthy = 1 ∧
        (showDashboardFrom [s₁, s₂] statuses).starting = 1 ∧
        (showDashboardFrom [s₁, s₂] statuses).stopped = 0 ∧
        (showDashboardFrom [s₁, s₂] statuses).total = 2 ∧
        (showDashboardFrom [s₁, s₂] statuses).summary = Summary.STARTING_UP.display) ∧
      ((showDashboardFrom [s₂, s₁] statuses).healthy = 1 ∧
        (showDashboardFrom [s₂, s₁] statuses).starting = 1 ∧
        (showDashboardFrom [s₂, s₁] statuses).stopped = 0 ∧
        (showDashboardFrom [s₂, s₁] statuses).total = 2 ∧
        (showDashboardFrom [s₂, s₁] statuses).summary = Summary.STARTING_UP.display)) := by
  have hsum : summaryMessage total healthy starting =
      Summary.display (if healthy = total then .ALL_HEALTHY
        else if healthy + starting > 0 then .STARTING_UP else .NONE_RUNNING) := by
    simp only [summaryMessage, beq_iff_eq]
    split_ifs <;> rfl
  have hiff : ∀ c : Summary, summaryMessage total healthy starting = c.display ↔
      (if healthy = total then Summary.ALL_HEALTHY
        else if healthy + starting > 0 then .STARTING_UP else .NONE_RUNNING) = c := by
    intro c
    rw [hsum]
    exact ⟨summary_display_injective _ _, fun h => by rw [h]⟩
  refine ⟨rfl, ?_, ?_, ?_, ?_, ?_⟩
  · rw [hiff]; split_ifs <;> simp_all
  · rw [hiff]; split_ifs <;> simp_all
  · rw [hiff]; split_ifs <;> simp_all
  · rw [hiff]; split_ifs <;> simp_all <;> omega
  · intro s₁ s₂ h1 h2
    have c1 := (display_healthy_iff _).mp h1
    have c2 := (display_starting_iff _).mp h2
    have c3 := countsStarting_not_healthy _ c2
    obtain ⟨a1, a2, a3, a4⟩ := tally_foldl statuses [s₁, s₂] ⟨[], [], 0, 0, 0, 0⟩
    obtain ⟨b1, b2, b3, b4⟩ := tally_foldl statuses [s₂, s₁] ⟨[], [], 0, 0, 0, 0⟩
    simp only [List.countP_cons, List.countP_nil, c1, c2, c3] at a1 a2 a3 a4 b1 b2 b3 b4
    simp only [showDashboardFrom, tallyServices, a1, a2, a3, a4, b1, b2, b3, b4]
    simp [summaryMessage, Summary.display]

/-- C10: the buckets of `showDashboard` agree with `getStatusDisplay`: for every registry
and status map, `healthy` is the number of services whose looked-up status displays as
HEALTHY, `starting` the number displaying as STARTING, and `stopped` the number
displaying as UNHEALTHY, RESTARTING, PAUSED or STOPPED. -/
theorem showDashboard_buckets_agree (services : List Service) (statuses : StatusMap) :
    (showDashboardFrom services statuses).healthy =
      services.countP (fun s => decide
        (getStatusDisplay (mapGet statuses s.Container) = DisplayCategory.HEALTHY.display)) ∧
    (showDashboardFrom services statuses).starting =
      services.countP (fun s => decide
        (getStatusDisplay (mapGet statuses s.Container) = DisplayCategory.STARTING.display)) ∧
    (showDashboardFrom services statuses).stopped =
      services.countP (fun s => decide
        (getStatusDisplay (mapGet statuses s.Container) = DisplayCategory.UNHEALTHY.display ∨
         getStatusDisplay (mapGet statuses s.Container) = DisplayCategory.RESTARTING.display ∨
         getStatusDisplay (mapGet statuses s.Container) = DisplayCategory.PAUSED.display ∨
         getStatusDisplay (mapGet statuses s.Container) = DisplayCategory.STOPPED.display)) := by
  obtain ⟨_, h2, h3, h4⟩ := tally_foldl statuses services ⟨[], [], 0, 0, 0, 0⟩
  simp only [showDashboardFrom, tallyServices]
  rw [h2, h3, h4]
  simp only [Nat.zero_add]
  refine ⟨List.countP_congr ?_, List.countP_congr ?_, List.countP_congr ?_⟩
  · intro s _
    rw [decide_eq_true_iff, display_healthy_iff]
  · intro s _
    rw [decide_eq_true_iff, display_starting_iff]
    constructor
    · intro h
      simp only [Bool.and_eq_true, Bool.not_eq_true'] at h
      exact h.2
    · intro h
      simp [h, countsStarting_not_healthy _ h]
  · intro s _
    rw [decide_eq_true_iff, display_other_iff]
    simp

/-! ## A failing container list -/

/-- C6: if the container-list call fails, `getAllContainerStatus` returns the empty map,
and for a non-empty registry of `k` services every service's looked-up status displays as
STOPPED, the counts are healthy 0, starting 0, stopped `k`, total `k`, and the summary is
NONE_RUNNING. -/
theorem list_failure_all_stopped (cli : Client) (services : List Service)
    (recvOrder : List ContainerStatus → List ContainerStatus) (err : String)
    (hfail : cli.ContainerList = .error err) (hne : services ≠ []) :
    getAllContainerStatus cli services recvOrder = [] ∧
    (∀ s ∈ services,
      getStatusDisplay (mapGet (getAllContainerStatus cli services recvOrder) s.Container) =
        DisplayCategory.STOPPED.display) ∧
    (showDashboard cli services recvOrder).healthy = 0 ∧
    (showDashboard cli services recvOrder).starting = 0 ∧
    (showDashboard cli services recvOrder).stopped = services.length ∧
    (showDashboard cli services recvOrder).total = services.length ∧
    (showDashboard cli services recvOrder).summary = Summary.NONE_RUNNING.display := by
  have hmap : getAllContainerStatus cli services recvOrder = [] := by
    simp only [getAllContainerStatus, hfail]
  have hget : ∀ k, mapGet [] k = ContainerStatus.zero := fun _ => rfl
  obtain ⟨h1, h2, h3, h4⟩ := tally_foldl [] services ⟨[], [], 0, 0, 0, 0⟩
  have z1 : countsHealthy ContainerStatus.zero = false := rfl
  have z2 : countsStarting ContainerStatus.zero = false := rfl
  simp only [hget, z1, z2, Nat.zero_add] at h1 h2 h3 h4
  have hlen : 0 < services.length := List.length_pos.mpr hne
  refine ⟨hmap, fun s _ => by rw [hmap, hget]; rfl, ?_, ?_, ?_, ?_, ?_⟩ <;>
    simp only [showDashboard, hmap, showDashboardFrom, tallyServices, h1, h2, h3, h4]
  · simp
  · simp
  · simp
  · simp [summaryMessage, Summary.display]
    omega

/-! ## The collector -/

theorem stringsContains_iff_infix (s substr : String) :
    stringsContains s substr = true ↔ List.IsInfix substr.toList s.toList := by
  simp only [stringsContains, List.any_eq_true, List.mem_tails, List.isPrefixOf_iff_prefix]
  rw [List.infix_iff_prefix_suffix]
  constructor
  · rintro ⟨t, ht, hp⟩
    exact ⟨t, hp, ht⟩
  · rintro ⟨t, hp, ht⟩
    exact ⟨t, ht, hp⟩

theorem received_names (cli : Client) (services : List Service)
    (recvOrder : List ContainerStatus → List ContainerStatus) (containers : List Container)
    (hperm : ∀ l, (recvOrder l).Perm l) :
    ((recvOrder (services.map (serviceStatus cli containers))).map
      ContainerStatus.Name).Perm (services.map Service.Container) := by
  have h := (hperm (services.map (serviceStatus cli containers))).map ContainerStatus.Name
  have hmap : (services.map (serviceStatus cli containers)).map ContainerStatus.Name =
      services.map Service.Container := by
    simp only [List.map_map]
    exact List.map_congr_left (fun s _ => serviceStatus_name cli containers s)
  rwa [hmap] at h

/-- C2: for every registry and every container list the runtime returns (the empty list
included), in whatever order the goroutines report, the map returned by
`getAllContainerStatus` has one entry per container identifier of the registry: its
length is the number of distinct identifiers, which is the number `k` of services when
the services are identified by their container identifier (pairwise distinct
identifiers); each registered service's identifier is a key whose entry carries that
identifier as `Name` (it is the status the service's goroutine computed), and every key
is the identifier of a registered service. -/
theorem getAllContainerStatus_one_entry_per_service (cli : Client) (services : List Service)
    (recvOrder : List ContainerStatus → List ContainerStatus) (containers : List Container)
    (hlist : cli.ContainerList = .ok containers)
    (hperm : ∀ l, (recvOrder l).Perm l) :
    mapLen (getAllContainerStatus cli services recvOrder) =
      (services.map Service.Container).dedup.length ∧
    ((services.map Service.Container).Nodup →
      mapLen (getAllContainerStatus cli services recvOrder) = services.length) ∧
    (∀ s ∈ services, ∃ st,
      mapFind? (getAllContainerStatus cli services recvOrder) s.Container = some st ∧
      st.Name = s.Container ∧ st = serviceStatus cli containers s) ∧
    (∀ k ∈ mapKeys (getAllContainerStatus cli services recvOrder),
      ∃ s ∈ services, s.Container = k) ∧
    (mapKeys (getAllContainerStatus cli services recvOrder)).Nodup := by
  have hnames := received_names cli services recvOrder containers hperm
  obtain ⟨hnodup, hmem⟩ := collect_keys
    (recvOrder (services.map (serviceStatus cli containers))) [] List.nodup_nil
  have hmap : getAllContainerStatus cli services recvOrder =
      (recvOrder (services.map (serviceStatus cli containers))).foldl
        (fun m status => mapSet m status.Name status) [] := by
    simp only [getAllContainerStatus, hlist, collectResults]
  rw [← hmap] at hnodup hmem
  have hkey : ∀ k, k ∈ mapKeys (getAllContainerStatus cli services recvOrder) ↔
      k ∈ services.map Service.Container := by
    intro k
    rw [hmem k, hnames.mem_iff]
    simp [mapKeys]
  have hlen : mapLen (getAllContainerStatus cli services recvOrder) =
      (services.map Service.Container).dedup.length := by
    have hp : (mapKeys (getAllContainerStatus cli services recvOrder)).Perm
        (services.map Service.Container).dedup := by
      rw [List.perm_ext_iff_of_nodup hnodup (List.nodup_dedup _)]
      intro k
      rw [hkey k, List.mem_dedup]
    have h := hp.length_eq
    simpa [mapLen, mapKeys] using h
  refine ⟨hlen, ?_, ?_, ?_, hnodup⟩
  · intro hid
    rw [hlen, hid.dedup, List.length_map]
  · intro s hs
    exact ⟨_, lookup_getAll cli services recvOrder containers hlist hperm s hs,
      serviceStatus_name cli containers s, rfl⟩
  · intro k hk
    rw [hkey k, List.mem_map] at hk
    exact hk

/-- Witness of C2: the program's own registry of ten services, the runtime listing two
containers, the statuses received in reverse registry order. -/
theorem getAllContainerStatus_one_entry_per_service_witness :
    kafkaClient.ContainerList = .ok [kafkaContainer, kafkaUiContainer] ∧
    (services.map Service.Container).Nodup ∧
    mapLen (getAllContainerStatus kafkaClient services List.reverse) = 10 ∧
    (∀ s ∈ services, ∃ st,
      mapFind? (getAllContainerStatus kafkaClient services List.reverse) s.Container =
        some st ∧
      st.Name = s.Container ∧
      st = serviceStatus kafkaClient [kafkaContainer, kafkaUiContainer] s) ∧
    (∀ k ∈ mapKeys (getAllContainerStatus kafkaClient services List.reverse),
      ∃ s ∈ services, s.Container = k) ∧
    (mapKeys (getAllContainerStatus kafkaClient services List.reverse)).Nodup :=
  have h := getAllContainerStatus_one_entry_per_service kafkaClient services List.reverse
    [kafkaContainer, kafkaUiContainer] rfl (fun l => List.reverse_perm l)
  ⟨rfl, by decide, h.2.1 (by decide), h.2.2⟩

/-- C3, evaluated on the program's registry: the runtime lists a running, healthy
"ms-kotlin-kafka" container and after it an exited "ms-kotlin-kafka-ui" container.  The
first container in listing order with a name containing "ms-kotlin-kafka" is the running
one, yet the status of the Kafka service takes the state of the later container (and
keeps the health of the earlier one), so Kafka is displayed as STOPPED. -/
theorem later_match_overwrites_first :
    kafkaService ∈ services ∧
    [kafkaContainer, kafkaUiContainer].find? (matchesService kafkaService) =
      some kafkaContainer ∧
    serviceStatus kafkaClient [kafkaContainer] kafkaService =
      ⟨"ms-kotlin-kafka", "running", "healthy", true⟩ ∧
    mapGet (getAllContainerStatus kafkaClient services id) "ms-kotlin-kafka" =
      ⟨"ms-kotlin-kafka", "exited", "healthy", false⟩ ∧
    getStatusDisplay (mapGet (getAllContainerStatus kafkaClient services id)
      "ms-kotlin-kafka") = DisplayCategory.STOPPED.display := by
  decide

theorem serviceStatus_single (cli : Client) (containers : List Container) (s : Service)
    (c : Container) (hone : containers.filter (matchesService s) = [c]) :
    serviceStatus cli containers s =
      { Name := s.Container
        Status := c.State
        Running := c.State == "running"
        Health := if c.State == "running" then inspectHealth cli c else "unknown" } := by
  have hc : matchesService s c = true := by
    have hmem : c ∈ containers.filter (matchesService s) := by rw [hone]; simp
    exact (List.mem_filter.mp hmem).2
  have hex : ∃ name ∈ c.Names, stringsContains name s.Container = true :=
    List.any_eq_true.mp hc
  simp only [serviceStatus]
  rw [scanContainers_filter, hone]
  simp only [scanContainers]
  rw [scanNames_match cli s c _ c.Names hex]

theorem serviceStatus_none (cli : Client) (containers : List Container) (s : Service)
    (hnone : ∀ c ∈ containers, ∀ name ∈ c.Names, stringsContains name s.Container = false) :
    serviceStatus cli containers s =
      { Name := s.Container, Status := "NOT_RUNNING", Health := "unknown",
        Running := false } := by
  have hfilter : containers.filter (matchesService s) = [] := by
    rw [List.filter_eq_nil_iff]
    intro c hc hm
    obtain ⟨name, hname, hcon⟩ := List.any_eq_true.mp hm
    rw [hnone c hc name hname] at hcon
    cases hcon
  simp only [serviceStatus]
  rw [scanContainers_filter, hfilter]
  rfl

theorem dashboard_single (s : Service) (statuses : StatusMap) :
    (showDashboardFrom [s] statuses).total = 1 ∧
    (showDashboardFrom [s] statuses).healthy =
      (if countsHealthy (mapGet statuses s.Container) then 1 else 0) ∧
    (showDashboardFrom [s] statuses).starting =
      (if !countsHealthy (mapGet statuses s.Container) &&
        countsStarting (mapGet statuses s.Container) then 1 else 0) ∧
    (showDashboardFrom [s] statuses).stopped =
      (if !countsHealthy (mapGet statuses s.Container) &&
        !countsStarting (mapGet statuses s.Container) then 1 else 0) ∧
    (showDashboardFrom [s] statuses).summary =
      summaryMessage 1 (if countsHealthy (mapGet statuses s.Container) then 1 else 0)
        (if !countsHealthy (mapGet statuses s.Container) &&
          countsStarting (mapGet statuses s.Container) then 1 else 0) := by
  obtain ⟨t1, t2, t3, t4⟩ := tallyService_counts statuses ⟨[], [], 0, 0, 0, 0⟩ s
  simp only [Nat.zero_add] at t1 t2 t3 t4
  simp only [showDashboardFrom, tallyServices, List.foldl_cons, List.foldl_nil, t1, t2, t3, t4]
  simp

/-- C8: health resolution for a matched container.  When exactly one container `c` of
the list has a name containing the service's identifier, the service's status in the
returned map has `Status` equal to `c.State` and `Running` true iff that state is
"running".  If the state is "running", `Health` is "no-healthcheck" when the inspect call
fails or reports no health, and the reported health status otherwise, whatever it is; if
the state is not "running", `Health` is "unknown" whatever the inspect call would answer.
In the scenario of a one-service registry with identifier "cid-a", one running container
named "/cid-a-1" and an inspect call reporting "healthy", the service displays as
HEALTHY, the counts are 1, 0, 0, 1 and the summary is ALL_HEALTHY. -/
theorem single_match_resolution (cli : Client) (services : List Service)
    (recvOrder : List ContainerStatus → List ContainerStatus) (containers : List Container)
    (hlist : cli.ContainerList = .ok containers)
    (hperm : ∀ l, (recvOrder l).Perm l) (s : Service) (hs : s ∈ services)
    (c : Container) (hone : containers.filter (matchesService s) = [c]) :
    (mapGet (getAllContainerStatus cli services recvOrder) s.Container).Name =
      s.Container ∧
    (mapGet (getAllContainerStatus cli services recvOrder) s.Container).Status = c.State ∧
    ((mapGet (getAllContainerStatus cli services recvOrder) s.Container).Running = true ↔
      c.State = "running") ∧
    (c.State = "running" →
      (∀ err, cli.ContainerInspect c.ID = .error err →
        (mapGet (getAllContainerStatus cli services recvOrder) s.Container).Health =
          "no-healthcheck") ∧
      (∀ inspect, cli.ContainerInspect c.ID = .ok inspect → inspect.State.Health = none →
        (mapGet (getAllContainerStatus cli services recvOrder) s.Container).Health =
          "no-healthcheck") ∧
      (∀ inspect h, cli.ContainerInspect c.ID = .ok inspect →
        inspect.State.Health = some h →
        (mapGet (getAllContainerStatus cli services recvOrder) s.Container).Health =
          h.Status)) ∧
    (c.State ≠ "running" →
      (mapGet (getAllContainerStatus cli services recvOrder) s.Container).Health =
        "unknown") ∧
    (∀ (name port typ id : String) (cli₁ : Client),
      cli₁.ContainerList = .ok [⟨id, ["/cid-a-1"], "running"⟩] →
      cli₁.ContainerInspect id = .ok ⟨⟨some ⟨"healthy"⟩⟩⟩ →
      getStatusDisplay (mapGet
        (getAllContainerStatus cli₁ [⟨name, "cid-a", port, typ⟩] recvOrder) "cid-a") =
        DisplayCategory.HEALTHY.display ∧
      (showDashboard cli₁ [⟨name, "cid-a", port, typ⟩] recvOrder).healthy = 1 ∧
      (showDashboard cli₁ [⟨name, "cid-a", port, typ⟩] recvOrder).starting = 0 ∧
      (showDashboard cli₁ [⟨name, "cid-a", port, typ⟩] recvOrder).stopped = 0 ∧
      (showDashboard cli₁ [⟨name, "cid-a", port, typ⟩] recvOrder).total = 1 ∧
      (showDashboard cli₁ [⟨name, "cid-a", port, typ⟩] recvOrder).summary =
        Summary.ALL_HEALTHY.display) := by
  have hst := get_getAll cli services recvOrder containers hlist hperm s hs
  rw [serviceStatus_single cli containers s c hone] at hst
  refine ⟨by rw [hst], by rw [hst], by rw [hst]; simp, ?_, ?_, ?_⟩
  · intro hrun
    refine ⟨?_, ?_, ?_⟩
    · intro err herr
      rw [hst]
      simp [hrun, inspectHealth, herr]
    · intro inspect hin hnone
      rw [hst]
      simp [hrun, inspectHealth, hin, hnone]
    · intro inspect h hin hsome
      rw [hst]
      simp [hrun, inspectHealth, hin, hsome]
  · intro hnot
    rw [hst]
    simp [hnot]
  · intro name port typ id cli₁ hl hi
    have hget := get_getAll cli₁ [⟨name, "cid-a", port, typ⟩] recvOrder _ hl hperm
      ⟨name, "cid-a", port, typ⟩ (List.mem_singleton.mpr rfl)
    have hfil : [(⟨id, ["/cid-a-1"], "running"⟩ : Container)].filter
        (matchesService ⟨name, "cid-a", port, typ⟩) = [⟨id, ["/cid-a-1"], "running"⟩] := by
      have : matchesService ⟨name, "cid-a", port, typ⟩ ⟨id, ["/cid-a-1"], "running"⟩ =
          true := by
        have hc : stringsContains "/cid-a-1" "cid-a" = true := by decide
        simp [matchesService, hc]
      simp [List.filter_cons, this]
    rw [serviceStatus_single cli₁ _ _ _ hfil] at hget
    simp only [inspectHealth, hi, beq_self_eq_true, if_true] at hget
    obtain ⟨d1, d2, d3, d4, d5⟩ := dashboard_single ⟨name, "cid-a", port, typ⟩
      (getAllContainerStatus cli₁ [⟨name, "cid-a", port, typ⟩] recvOrder)
    simp only [hget] at d1 d2 d3 d4 d5
    refine ⟨by rw [hget]; rfl, ?_, ?_, ?_, ?_, ?_⟩
    · rw [showDashboard, d2]; rfl
    · rw [showDashboard, d3]; rfl
    · rw [showDashboard, d4]; rfl
    · rw [showDashboard, d1]
    · rw [showDashboard, d5]; rfl

/-- Witness of C8: the program's registry, a runtime listing one running MySQL container
whose inspect call reports "starting", statuses received in reverse registry order. -/
theorem single_match_resolution_witness :
    mysqlClient.ContainerList = .ok [mysqlContainer] ∧
    mysqlService ∈ services ∧
    [mysqlContainer].filter (matchesService mysqlService) = [mysqlContainer] ∧
    (mapGet (getAllContainerStatus mysqlClient services List.reverse)
      mysqlService.Container).Status = mysqlContainer.State ∧
    ((mapGet (getAllContainerStatus mysqlClient services List.reverse)
      mysqlService.Container).Running = true ↔ mysqlContainer.State = "running") ∧
    (mapGet (getAllContainerStatus mysqlClient services List.reverse)
      mysqlService.Container).Health = "starting" :=
  have h := single_match_resolution mysqlClient services List.reverse [mysqlContainer] rfl
    (fun l => List.reverse_perm l) mysqlService (by decide) mysqlContainer (by decide)
  ⟨rfl, by decide, by decide, h.2.1, h.2.2.1,
    (h.2.2.2.1 rfl).2.2 ⟨⟨some ⟨"starting"⟩⟩⟩ ⟨"starting"⟩ rfl rfl⟩

/-- C9: when no name of any listed container contains the service's identifier (in
particular when the list is empty), the service's status in the returned map is the
default: `Status` "NOT_RUNNING", `Health` "unknown", not running; it displays as STOPPED.
For a one-service registry and an empty list the counts are 0, 0, 1, 1 and the summary is
NONE_RUNNING. -/
theorem no_match_keeps_default (cli : Client) (services : List Service)
    (recvOrder : List ContainerStatus → List ContainerStatus) (containers : List Container)
    (hlist : cli.ContainerList = .ok containers)
    (hperm : ∀ l, (recvOrder l).Perm l) (s : Service) (hs : s ∈ services)
    (hnone : ∀ c ∈ containers, ∀ name ∈ c.Names,
      stringsContains name s.Container = false) :
    mapGet (getAllContainerStatus cli services recvOrder) s.Container =
      { Name := s.Container, Status := "NOT_RUNNING", Health := "unknown",
        Running := false } ∧
    getStatusDisplay (mapGet (getAllContainerStatus cli services recvOrder) s.Container) =
      DisplayCategory.STOPPED.display ∧
    (∀ (svc : Service) (cli₁ : Client), cli₁.ContainerList = .ok [] →
      getStatusDisplay (mapGet (getAllContainerStatus cli₁ [svc] recvOrder) svc.Container) =
        DisplayCategory.STOPPED.display ∧
      (showDashboard cli₁ [svc] recvOrder).healthy = 0 ∧
      (showDashboard cli₁ [svc] recvOrder).starting = 0 ∧
      (showDashboard cli₁ [svc] recvOrder).stopped = 1 ∧
      (showDashboard cli₁ [svc] recvOrder).total = 1 ∧
      (showDashboard cli₁ [svc] recvOrder).summary = Summary.NONE_RUNNING.display) := by
  have hst := get_getAll cli services recvOrder containers hlist hperm s hs
  rw [serviceStatus_none cli containers s hnone] at hst
  refine ⟨hst, by rw [hst]; rfl, ?_⟩
  intro svc cli₁ hl
  have hget := get_getAll cli₁ [svc] recvOrder [] hl hperm svc (List.mem_singleton.mpr rfl)
  rw [serviceStatus_none cli₁ [] svc (fun c hc => by cases hc)] at hget
  obtain ⟨d1, d2, d3, d4, d5⟩ := dashboard_single svc
    (getAllContainerStatus cli₁ [svc] recvOrder)
  simp only [hget] at d1 d2 d3 d4 d5
  refine ⟨by rw [hget]; rfl, ?_, ?_, ?_, ?_, ?_⟩
  · rw [showDashboard, d2]; rfl
  · rw [showDashboard, d3]; rfl
  · rw [showDashboard, d4]; rfl
  · rw [showDashboard, d1]
  · rw [showDashboard, d5]; rfl

/-- Witness of C9: the program's registry and a runtime listing only a MySQL container,
whose name does not contain the identifier of the Kafka service. -/
theorem no_match_keeps_default_witness :
    mysqlClient.ContainerList = .ok [mysqlContainer] ∧
    kafkaService ∈ services ∧
    (∀ c ∈ [mysqlContainer], ∀ name ∈ c.Names,
      stringsContains name kafkaService.Container = false) ∧
    mapGet (getAllContainerStatus mysqlClient services List.reverse)
      kafkaService.Container =
      { Name := "ms-kotlin-kafka", Status := "NOT_RUNNING", Health := "unknown",
        Running := false } ∧
    getStatusDisplay (mapGet (getAllContainerStatus mysqlClient services List.reverse)
      kafkaService.Container) = DisplayCategory.STOPPED.display :=
  have h := no_match_keeps_default mysqlClient services List.reverse [mysqlContainer] rfl
    (fun l => List.reverse_perm l) kafkaService (by decide) (by decide)
  ⟨rfl, by decide, by decide, h.1, h.2.1⟩

/-- Witness of C6: the program's registry of ten services and a runtime whose list call
fails. -/
theorem list_failure_all_stopped_witness :
    failingClient.ContainerList = .error "cannot connect to the Docker daemon" ∧
    services ≠ [] ∧
    getAllContainerStatus failingClient services List.reverse = [] ∧
    (∀ s ∈ services,
      getStatusDisplay (mapGet (getAllContainerStatus failingClient services List.reverse)
        s.Container) = DisplayCategory.STOPPED.display) ∧
    (showDashboard failingClient services List.reverse).healthy = 0 ∧
    (showDashboard failingClient services List.reverse).starting = 0 ∧
    (showDashboard failingClient services List.reverse).stopped = services.length ∧
    (showDashboard failingClient services List.reverse).total = services.length ∧
    (showDashboard failingClient services List.reverse).summary =
      Summary.NONE_RUNNING.display :=
  ⟨rfl, by decide,
    list_failure_all_stopped failingClient services List.reverse _ rfl (by decide)⟩

/-- Witness of C5: a healthy MongoDB and a starting MySQL. -/
theorem summaryMessage_cases_witness :
    getStatusDisplay (mapGet twoStatuses mongoService.Container) =
      DisplayCategory.HEALTHY.display ∧
    getStatusDisplay (mapGet twoStatuses mysqlService.Container) =
      DisplayCategory.STARTING.display ∧
    (showDashboardFrom [mongoService, mysqlService] twoStatuses).healthy = 1 ∧
    (showDashboardFrom [mongoService, mysqlService] twoStatuses).starting = 1 ∧
    (showDashboardFrom [mongoService, mysqlService] twoStatuses).stopped = 0 ∧
    (showDashboardFrom [mongoService, mysqlService] twoStatuses).total = 2 ∧
    (showDashboardFrom [mongoService, mysqlService] twoStatuses).summary =
      Summary.STARTING_UP.display :=
  ⟨by decide, by decide,
    ((summaryMessage_cases 2 1 1 [mongoService, mysqlService] twoStatuses).2.2.2.2.2
      mongoService mysqlService (by decide) (by decide)).1⟩

/-! ## The monitoring loop -/

/-- C7 as stated fails: with an interval of 1 s and a cycle taking 1.4 s, the delay
before the next cycle is not `max(0, interval - elapsed) = 0`. -/
theorem delay_not_remainder :
    ¬ ((mainCycle 1000000000 0 1400000000).delay = max 0 (1000000000 - 1400000000)) := by
  decide

/-- C7, amended: in every cycle the loop passes the configured interval itself to
`time.Sleep`, so the delay before the next cycle is `max(0, interval)` whatever the
processing time was, in each cycle of a run of the loop; with an interval of 1 s and a
cycle taking 1.4 s the next cycle starts a full second after the processing ended. -/
theorem delay_is_interval (interval now elapsed : Int) (elapsedTimes : List Int) :
    (mainCycle interval now elapsed).sleepArg = interval ∧
    (mainCycle interval now elapsed).duration = elapsed ∧
    (mainCycle interval now elapsed).delay = max 0 interval ∧
    (mainLoop interval now elapsedTimes).map Cycle.delay =
      List.replicate elapsedTimes.length (max 0 interval) ∧
    (mainCycle 1000000000 now 1400000000).delay = 1000000000 := by
  have hdelay : ∀ n e : Int, (mainCycle interval n e).delay = max 0 interval := by
    intro n e
    simp only [mainCycle, Cycle.delay, timeSleep]
    split_ifs with h
    · rw [max_eq_left h]; omega
    · rw [max_eq_right (by omega)]; omega
  refine ⟨rfl, by simp [mainCycle], hdelay now elapsed, ?_, ?_⟩
  · induction elapsedTimes generalizing now with
    | nil => rfl
    | cons e rest ih =>
      simp only [mainLoop, List.map_cons, List.length_cons, List.replicate_succ, hdelay, ih]
  · simp only [mainCycle, Cycle.delay, timeSleep]
    omega

end Monitor
